import Mathlib

/-!
Verification of the DCF valuation engine of `src/dcf.py`
(`CalculateDCFDensity`), checked against the repository specification.

The Python function is embedded shallowly: Python floats become exact
rationals (`ℚ`), the Python `int` argument `periodForwards` becomes `ℤ`,
and the two runtime exceptions the function can actually raise
(`IndexError` from `fcf[-1]` or `tlist[0]`, `ZeroDivisionError` from the
three divisions whose divisor can be zero) are made explicit in an
`Except` result.  The spec additionally names two validation errors,
`InvalidModelParameters` and `InsufficientData`; they are included as
constructors of the error type so that statements about them can be
expressed, but the source never raises them.
-/

/-- Errors.  `indexError` and `zeroDivisionError` model the Python
exceptions `CalculateDCFDensity` can raise.  `invalidModelParameters` and
`insufficientData` are the validation errors named by the specification;
no code path of the source produces them. -/
inductive DCFError where
  | indexError : DCFError
  | zeroDivisionError : DCFError
  | invalidModelParameters : DCFError
  | insufficientData : DCFError
deriving DecidableEq

/-- Explicitly projected forward free cash flows, the list `ffcf` of the
source before the terminal value is appended: `ffcf[0] = fcf0*(1+g)` and
`ffcf[i] = ffcf[i-1]*(1+g)`. -/
def ffcf (fcf0 growthRate : ℚ) : ℕ → ℚ
  | 0 => fcf0 * (1 + growthRate)
  | i + 1 => ffcf fcf0 growthRate i * (1 + growthRate)

/-- Sum of the discounted cash flows, the variable `pvffcfSum` of the
source: present values of the `(periodForwards-1).toNat + 1` explicitly
projected cash flows (discounted at `t = i+1`, the entries of
`tlist = range(1, periodForwards+2)`), plus the present value of the
Gordon terminal value, discounted at `t = tlist[-1] = periodForwards+1`. -/
def pvffcfSum (fcf0 : ℚ) (periodForwards : ℤ)
    (growthRate perpetualGrowthRate discountRate : ℚ) : ℚ :=
  let m := (periodForwards - 1).toNat
  let pvffcf : List ℚ :=
    (List.range (m + 1)).map
      (fun i => ffcf fcf0 growthRate i / (1 + discountRate) ^ (i + 1))
  let terminal : ℚ :=
    ffcf fcf0 growthRate m * (1 + perpetualGrowthRate) /
      (discountRate - perpetualGrowthRate)
  let pvterminal : ℚ := terminal / (1 + discountRate) ^ (periodForwards + 1).toNat
  pvffcf.sum + pvterminal

/-- Value returned on the non-raising path of `CalculateDCFDensity`:
`equityValue = pvffcfSum + totalCash - totalDebt`, divided by
`outstandingShares`. -/
def dcfValue (fcf0 : ℚ) (periodForwards : ℤ)
    (growthRate perpetualGrowthRate discountRate totalCash totalDebt
      outstandingShares : ℚ) : ℚ :=
  let equityValue :=
    pvffcfSum fcf0 periodForwards growthRate perpetualGrowthRate discountRate
      + totalCash - totalDebt
  equityValue / outstandingShares

/-- Shallow embedding of `CalculateDCFDensity` from `src/dcf.py`.
Control flow of the source, in raise order:
`fcf[-1]` raises `IndexError` on an empty history; the first division
`ffcf[0] / (1+discountRate)**tlist[0]` raises `IndexError` when `tlist`
is empty (`periodForwards <= -1`) and `ZeroDivisionError` when
`discountRate = -1`; the terminal-value division raises
`ZeroDivisionError` when `discountRate = perpetualGrowthRate`; the final
division raises `ZeroDivisionError` when `outstandingShares = 0`.
No other validation exists in the source. -/
def CalculateDCFDensity (fcf : List ℚ) (periodForwards : ℤ)
    (growthRate perpetualGrowthRate discountRate totalCash totalDebt
      outstandingShares : ℚ) : Except DCFError ℚ :=
  let tlist : List ℤ :=
    (List.range (periodForwards + 1).toNat).map (fun (i : ℕ) => 1 + (i : ℤ))
  match fcf.getLast? with
  | none => Except.error DCFError.indexError
  | some fcf0 =>
    match tlist.head? with
    | none => Except.error DCFError.indexError
    | some _ =>
      if 1 + discountRate = 0 then Except.error DCFError.zeroDivisionError
      else if discountRate - perpetualGrowthRate = 0 then
        Except.error DCFError.zeroDivisionError
      else if outstandingShares = 0 then Except.error DCFError.zeroDivisionError
      else
        Except.ok (dcfValue fcf0 periodForwards growthRate perpetualGrowthRate
          discountRate totalCash totalDebt outstandingShares)

/-- Per-share value actually produced on a non-raising run, with an
arbitrary default on raising runs. -/
def dcfResult (fcf : List ℚ) (periodForwards : ℤ)
    (growthRate perpetualGrowthRate discountRate totalCash totalDebt
      outstandingShares : ℚ) : ℚ :=
  ((CalculateDCFDensity fcf periodForwards growthRate perpetualGrowthRate
      discountRate totalCash totalDebt outstandingShares).toOption).getD 0

/-- Per-share formula of the specification (§4.1 / claim C1): the sum of
the explicitly projected cash flows discounted at `t = 1..n`, plus the
Gordon terminal value discounted at `t = n+1`, plus net cash, all divided
by the share count. -/
def specPerShare (fcf0 : ℚ) (n : ℕ)
    (growthRate perpetualGrowthRate discountRate totalCash totalDebt
      outstandingShares : ℚ) : ℚ :=
  ((∑ t ∈ Finset.Icc 1 n, fcf0 * (1 + growthRate) ^ t / (1 + discountRate) ^ t)
    + fcf0 * (1 + growthRate) ^ n * (1 + perpetualGrowthRate) /
        ((discountRate - perpetualGrowthRate) * (1 + discountRate) ^ (n + 1))
    + totalCash - totalDebt) / outstandingShares

theorem ffcf_eq_pow (fcf0 g : ℚ) : ∀ i : ℕ, ffcf fcf0 g i = fcf0 * (1 + g) ^ (i + 1)
  | 0 => by simp [ffcf]
  | i + 1 => by
    rw [ffcf, ffcf_eq_pow fcf0 g i]
    ring

theorem tlist_head (pF : ℤ) (hpF : 0 ≤ pF) :
    ((List.range (pF + 1).toNat).map (fun (i : ℕ) => 1 + (i : ℤ))).head? = some 1 := by
  have h : (pF + 1).toNat = pF.toNat + 1 := by omega
  rw [h, List.range_succ_eq_map]
  simp

theorem tlist_nil (pF : ℤ) (hpF : pF ≤ -1) :
    ((List.range (pF + 1).toNat).map (fun (i : ℕ) => 1 + (i : ℤ))) = [] := by
  have h : (pF + 1).toNat = 0 := by omega
  rw [h]
  rfl

theorem CalculateDCFDensity_ok (fcf : List ℚ) (hne : fcf ≠ []) (pF : ℤ)
    (hpF : 0 ≤ pF) (g pgr r tc td os : ℚ)
    (hr : 1 + r ≠ 0) (hrp : r - pgr ≠ 0) (hos : os ≠ 0) :
    CalculateDCFDensity fcf pF g pgr r tc td os
      = Except.ok (dcfValue (fcf.getLast hne) pF g pgr r tc td os) := by
  rw [CalculateDCFDensity, List.getLast?_eq_getLast_of_ne_nil hne]
  simp only [tlist_head pF hpF, if_neg hr, if_neg hrp, if_neg hos]

theorem CalculateDCFDensity_nil (pF : ℤ) (g pgr r tc td os : ℚ) :
    CalculateDCFDensity [] pF g pgr r tc td os = Except.error DCFError.indexError := by
  rfl

theorem CalculateDCFDensity_neg_horizon (fcf : List ℚ) (hne : fcf ≠ []) (pF : ℤ)
    (hpF : pF ≤ -1) (g pgr r tc td os : ℚ) :
    CalculateDCFDensity fcf pF g pgr r tc td os = Except.error DCFError.indexError := by
  rw [CalculateDCFDensity, List.getLast?_eq_getLast_of_ne_nil hne]
  simp only [tlist_nil pF hpF, List.head?_nil]

theorem CalculateDCFDensity_r_neg_one (fcf : List ℚ) (hne : fcf ≠ []) (pF : ℤ)
    (hpF : 0 ≤ pF) (g pgr r tc td os : ℚ) (hr : 1 + r = 0) :
    CalculateDCFDensity fcf pF g pgr r tc td os
      = Except.error DCFError.zeroDivisionError := by
  rw [CalculateDCFDensity, List.getLast?_eq_getLast_of_ne_nil hne]
  simp only [tlist_head pF hpF, if_pos hr]

theorem CalculateDCFDensity_rate_eq (fcf : List ℚ) (hne : fcf ≠ []) (pF : ℤ)
    (hpF : 0 ≤ pF) (g pgr r tc td os : ℚ) (hr : 1 + r ≠ 0) (heq : r - pgr = 0) :
    CalculateDCFDensity fcf pF g pgr r tc td os
      = Except.error DCFError.zeroDivisionError := by
  rw [CalculateDCFDensity, List.getLast?_eq_getLast_of_ne_nil hne]
  simp only [tlist_head pF hpF, if_neg hr, if_pos heq]

theorem CalculateDCFDensity_os_zero (fcf : List ℚ) (hne : fcf ≠ []) (pF : ℤ)
    (hpF : 0 ≤ pF) (g pgr r tc td : ℚ) (hr : 1 + r ≠ 0) (hrp : r - pgr ≠ 0) :
    CalculateDCFDensity fcf pF g pgr r tc td 0
      = Except.error DCFError.zeroDivisionError := by
  rw [CalculateDCFDensity, List.getLast?_eq_getLast_of_ne_nil hne]
  simp only [tlist_head pF hpF, if_neg hr, if_neg hrp]
  simp

theorem pv_list_sum (fcf0 g r : ℚ) : ∀ n : ℕ,
    ((List.range n).map (fun i => ffcf fcf0 g i / (1 + r) ^ (i + 1))).sum
      = ∑ t ∈ Finset.Icc 1 n, fcf0 * (1 + g) ^ t / (1 + r) ^ t
  | 0 => by
    rw [Finset.Icc_eq_empty (by omega)]
    simp
  | n + 1 => by
    rw [List.range_succ, List.map_append, List.sum_append, pv_list_sum fcf0 g r n,
      Finset.sum_Icc_succ_top (by omega : 1 ≤ n + 1)]
    simp [ffcf_eq_pow]

theorem pvffcfSum_eq_spec (fcf0 : ℚ) (pF : ℤ) (hpF : 1 ≤ pF) (g pgr r : ℚ) :
    pvffcfSum fcf0 pF g pgr r
      = (∑ t ∈ Finset.Icc 1 pF.toNat, fcf0 * (1 + g) ^ t / (1 + r) ^ t)
        + fcf0 * (1 + g) ^ pF.toNat * (1 + pgr) /
            ((r - pgr) * (1 + r) ^ (pF.toNat + 1)) := by
  have hm1 : (pF - 1).toNat + 1 = pF.toNat := by omega
  have hm2 : (pF + 1).toNat = pF.toNat + 1 := by omega
  simp only [pvffcfSum]
  rw [ffcf_eq_pow, hm1, hm2, pv_list_sum, div_div]

theorem dcfValue_eq_spec (fcf0 : ℚ) (pF : ℤ) (hpF : 1 ≤ pF)
    (g pgr r tc td os : ℚ) :
    dcfValue fcf0 pF g pgr r tc td os = specPerShare fcf0 pF.toNat g pgr r tc td os := by
  simp only [dcfValue, specPerShare, pvffcfSum_eq_spec fcf0 pF hpF]

theorem ffcf_smul (lam fcf0 g : ℚ) : ∀ i : ℕ, ffcf (lam * fcf0) g i = lam * ffcf fcf0 g i
  | 0 => by simp only [ffcf]; ring
  | i + 1 => by
    simp only [ffcf, ffcf_smul lam fcf0 g i]
    ring

theorem pv_list_smul (lam fcf0 g r : ℚ) : ∀ n : ℕ,
    ((List.range n).map (fun i => ffcf (lam * fcf0) g i / (1 + r) ^ (i + 1))).sum
      = lam * ((List.range n).map (fun i => ffcf fcf0 g i / (1 + r) ^ (i + 1))).sum
  | 0 => by simp
  | n + 1 => by
    rw [List.range_succ]
    simp only [List.map_append, List.sum_append, List.map_cons, List.map_nil,
      List.sum_cons, List.sum_nil]
    rw [pv_list_smul lam fcf0 g r n, ffcf_smul]
    ring

theorem pvffcfSum_smul (lam fcf0 : ℚ) (pF : ℤ) (g pgr r : ℚ) :
    pvffcfSum (lam * fcf0) pF g pgr r = lam * pvffcfSum fcf0 pF g pgr r := by
  simp only [pvffcfSum]
  rw [pv_list_smul, ffcf_smul]
  ring

theorem dcfValue_smul (lam fcf0 : ℚ) (pF : ℤ) (g pgr r tc td os : ℚ) :
    dcfValue (lam * fcf0) pF g pgr r (lam * tc) (lam * td) os
      = lam * dcfValue fcf0 pF g pgr r tc td os := by
  simp only [dcfValue, pvffcfSum_smul]
  ring

theorem getLast?_map_mul (lam : ℚ) (l : List ℚ) :
    (l.map (fun x => lam * x)).getLast? = l.getLast?.map (fun x => lam * x) := by
  induction l using List.reverseRecOn with
  | nil => rfl
  | append_singleton l a ih => simp [List.getLast?_concat]

/-- Claim C1, counterexample to the universally quantified statement: at
`discountRate = -1` (allowed by "all rates with discountRate different
from perpetualGrowthRate") the source raises `ZeroDivisionError` at the
first discounting division instead of returning the claimed formula. -/
theorem dcf_formula_counterexample :
    CalculateDCFDensity [1] 1 0 0 (-1) 0 0 1
      ≠ Except.ok (specPerShare 1 1 0 0 (-1) 0 0 1) := by
  have h : CalculateDCFDensity [1] 1 0 0 (-1) 0 0 1
      = Except.error DCFError.zeroDivisionError :=
    CalculateDCFDensity_r_neg_one [1] (by simp) 1 (by omega) 0 0 (-1) 0 0 1 (by norm_num)
  rw [h]
  intro hc
  exact Except.noConfusion hc

/-- Claim C1 (amended: additionally `discountRate ≠ -1`, since at
`discountRate = -1` the code raises `ZeroDivisionError`): for a non-empty
history, `forwardPeriods ≥ 1`, `discountRate ≠ perpetualGrowthRate`,
`discountRate ≠ -1` and `outstandingShares ≠ 0`, `CalculateDCFDensity`
returns exactly the spec's per-share formula, with the terminal value
discounted at horizon `forwardPeriods + 1`. -/
theorem dcf_formula_correct (fcf : List ℚ) (hne : fcf ≠ []) (pF : ℤ) (hpF : 1 ≤ pF)
    (g pgr r tc td os : ℚ) (hrp : r ≠ pgr) (hr : r ≠ -1) (hos : os ≠ 0) :
    CalculateDCFDensity fcf pF g pgr r tc td os
      = Except.ok (specPerShare (fcf.getLast hne) pF.toNat g pgr r tc td os) := by
  rw [CalculateDCFDensity_ok fcf hne pF (by omega) g pgr r tc td os
      (fun h => hr (by linarith)) (sub_ne_zero_of_ne hrp) hos,
    dcfValue_eq_spec _ pF hpF]

/-- Witness for `dcf_formula_correct` at the spec's worked example. -/
theorem dcf_formula_correct_witness :
    CalculateDCFDensity [100] 1 0 (2/100) (8/100) 0 0 10
      = Except.ok (specPerShare 100 1 0 (2/100) (8/100) 0 0 10) :=
  dcf_formula_correct [100] (by simp) 1 (by norm_num) 0 (2/100) (8/100) 0 0 10
    (by norm_num) (by norm_num) (by norm_num)

/-- Claim C2: on the spec's worked example the engine returns exactly
`113000/729 ≈ 155.0069`, which is within `0.01` of the claimed `155.006`. -/
theorem dcf_example_valuation :
    CalculateDCFDensity [100] 1 0 (2/100) (8/100) 0 0 10 = Except.ok (113000/729)
      ∧ |(113000 : ℚ)/729 - 155006/1000| < 1/100 := by
  constructor
  · rw [CalculateDCFDensity_ok [100] (by simp) 1 (by omega) 0 (2/100) (8/100) 0 0 10
      (by norm_num) (by norm_num) (by norm_num)]
    norm_num [dcfValue, pvffcfSum, ffcf, List.range_succ, show Int.toNat 2 = 2 from rfl]
  · rw [abs_sub_lt_iff]
    constructor <;> norm_num

/-- Claim C3, counterexample: with `discountRate < perpetualGrowthRate`
(here `0.02 < 0.08`) and all other inputs valid, the engine does not fail
at all — it returns a finite (meaningless, negative) per-share value, so
no `InvalidModelParameters` validation error is raised. -/
theorem rate_misordering_counterexample :
    CalculateDCFDensity [100] 1 0 (8/100) (2/100) 0 0 10
      = Except.ok (-141500/867) := by
  rw [CalculateDCFDensity_ok [100] (by simp) 1 (by omega) 0 (8/100) (2/100) 0 0 10
    (by norm_num) (by norm_num) (by norm_num)]
  norm_num [dcfValue, pvffcfSum, ffcf, List.range_succ, show Int.toNat 2 = 2 from rfl]

/-- Claim C3 (amended): the source has no rate validation.  When
`discountRate = perpetualGrowthRate` (with a non-empty history,
`forwardPeriods ≥ 1` and `discountRate ≠ -1`) it raises
`ZeroDivisionError` at the terminal-value division, i.e. during the
arithmetic, not before it; when `discountRate < perpetualGrowthRate`
(and `outstandingShares ≠ 0`) it does not fail and returns a value. -/
theorem rate_misordering_behavior (fcf : List ℚ) (hne : fcf ≠ []) (pF : ℤ)
    (hpF : 1 ≤ pF) (g pgr r tc td os : ℚ) (hr : r ≠ -1) :
    (r = pgr → CalculateDCFDensity fcf pF g pgr r tc td os
        = Except.error DCFError.zeroDivisionError)
    ∧ (r < pgr → os ≠ 0 → CalculateDCFDensity fcf pF g pgr r tc td os
        = Except.ok (dcfValue (fcf.getLast hne) pF g pgr r tc td os)) := by
  have h1 : 1 + r ≠ 0 := fun h => hr (by linarith)
  constructor
  · intro heq
    exact CalculateDCFDensity_rate_eq fcf hne pF (by omega) g pgr r tc td os h1
      (by rw [heq, sub_self])
  · intro hlt hos
    exact CalculateDCFDensity_ok fcf hne pF (by omega) g pgr r tc td os h1
      (sub_ne_zero_of_ne (ne_of_lt hlt)) hos

/-- Witness for `rate_misordering_behavior` at equal rates. -/
theorem rate_misordering_behavior_witness :
    ((2/100 : ℚ) = 2/100 → CalculateDCFDensity [100] 1 0 (2/100) (2/100) 0 0 10
        = Except.error DCFError.zeroDivisionError)
    ∧ ((2/100 : ℚ) < 2/100 → (10 : ℚ) ≠ 0 →
        CalculateDCFDensity [100] 1 0 (2/100) (2/100) 0 0 10
          = Except.ok (dcfValue 100 1 0 (2/100) (2/100) 0 0 10)) :=
  rate_misordering_behavior [100] (by simp) 1 (by norm_num) 0 (2/100) (2/100) 0 0 10
    (by norm_num)

/-- Claim C4, counterexample: an empty history does make the engine fail,
but with an uncaught `IndexError` from `fcf[-1]`, not with the
`InsufficientData` validation error the claim names. -/
theorem empty_history_counterexample :
    CalculateDCFDensity [] 1 0 (2/100) (8/100) 0 0 10
        = Except.error DCFError.indexError
    ∧ CalculateDCFDensity [] 1 0 (2/100) (8/100) 0 0 10
        ≠ Except.error DCFError.insufficientData := by
  constructor
  · exact CalculateDCFDensity_nil 1 0 (2/100) (8/100) 0 0 10
  · rw [CalculateDCFDensity_nil]
    simp

/-- Claim C4 (amended): for every combination of the other inputs, an
empty FCF history makes `CalculateDCFDensity` fail with an uncaught
`IndexError` (raised by `fcf[-1]`), not with a dedicated
`InsufficientData` validation error. -/
theorem empty_history_behavior (pF : ℤ) (g pgr r tc td os : ℚ) :
    CalculateDCFDensity [] pF g pgr r tc td os = Except.error DCFError.indexError :=
  CalculateDCFDensity_nil pF g pgr r tc td os

/-- Claim C5, counterexample: with `outstandingShares = -10 < 0` and all
other inputs valid, the engine does not fail — it silently returns a
sign-flipped per-share value, so no `InvalidModelParameters` validation
error is raised. -/
theorem shares_counterexample :
    CalculateDCFDensity [100] 1 0 (2/100) (8/100) 0 0 (-10)
      = Except.ok (-113000/729) := by
  rw [CalculateDCFDensity_ok [100] (by simp) 1 (by omega) 0 (2/100) (8/100) 0 0 (-10)
    (by norm_num) (by norm_num) (by norm_num)]
  norm_num [dcfValue, pvffcfSum, ffcf, List.range_succ, show Int.toNat 2 = 2 from rfl]

/-- Claim C5 (amended): the source has no share-count validation.  With
`outstandingShares = 0` (and otherwise valid inputs) the final division
raises `ZeroDivisionError`; with `outstandingShares < 0` the engine does
not fail and returns the equity value divided by the negative count. -/
theorem shares_validation_behavior (fcf : List ℚ) (hne : fcf ≠ []) (pF : ℤ)
    (hpF : 1 ≤ pF) (g pgr r tc td os : ℚ) (hr : r ≠ -1) (hrp : r ≠ pgr) :
    (CalculateDCFDensity fcf pF g pgr r tc td 0
        = Except.error DCFError.zeroDivisionError)
    ∧ (os < 0 → CalculateDCFDensity fcf pF g pgr r tc td os
        = Except.ok (dcfValue (fcf.getLast hne) pF g pgr r tc td os)) := by
  have h1 : 1 + r ≠ 0 := fun h => hr (by linarith)
  have h2 : r - pgr ≠ 0 := sub_ne_zero_of_ne hrp
  exact ⟨CalculateDCFDensity_os_zero fcf hne pF (by omega) g pgr r tc td h1 h2,
    fun hos => CalculateDCFDensity_ok fcf hne pF (by omega) g pgr r tc td os h1 h2
      (ne_of_lt hos)⟩

/-- Witness for `shares_validation_behavior`. -/
theorem shares_validation_behavior_witness :
    (CalculateDCFDensity [100] 1 0 (2/100) (8/100) 0 0 0
        = Except.error DCFError.zeroDivisionError)
    ∧ ((-10 : ℚ) < 0 → CalculateDCFDensity [100] 1 0 (2/100) (8/100) 0 0 (-10)
        = Except.ok (dcfValue 100 1 0 (2/100) (8/100) 0 0 (-10))) :=
  shares_validation_behavior [100] (by simp) 1 (by norm_num) 0 (2/100) (8/100) 0 0 (-10)
    (by norm_num) (by norm_num)

/-- Claim C6, counterexample: with `forwardPeriods = 0 < 1` and all other
inputs valid, the engine does not fail — it computes a degenerate
valuation (one explicit year, terminal value also discounted at `t = 1`)
instead of raising `InvalidModelParameters`. -/
theorem horizon_counterexample :
    CalculateDCFDensity [100] 0 0 (2/100) (8/100) 0 0 10 = Except.ok (500/3) := by
  rw [CalculateDCFDensity_ok [100] (by simp) 0 (by omega) 0 (2/100) (8/100) 0 0 10
    (by norm_num) (by norm_num) (by norm_num)]
  norm_num [dcfValue, pvffcfSum, ffcf, show ((-1) : ℤ).toNat = 0 from rfl,
    show Int.toNat 1 = 1 from rfl, List.range_succ]

/-- Claim C6 (amended): the source has no horizon validation.  With a
non-empty history, `forwardPeriods ≤ -1` raises an uncaught `IndexError`
(at `tlist[0]`, since `tlist` is empty), while every
`forwardPeriods ≥ 0` — including the sub-spec value `0` — succeeds (given
otherwise valid inputs) and returns a value. -/
theorem horizon_validation_behavior (fcf : List ℚ) (hne : fcf ≠ []) (pF : ℤ)
    (g pgr r tc td os : ℚ) (hr : r ≠ -1) (hrp : r ≠ pgr) (hos : os ≠ 0) :
    (pF ≤ -1 → CalculateDCFDensity fcf pF g pgr r tc td os
        = Except.error DCFError.indexError)
    ∧ (0 ≤ pF → CalculateDCFDensity fcf pF g pgr r tc td os
        = Except.ok (dcfValue (fcf.getLast hne) pF g pgr r tc td os)) := by
  have h1 : 1 + r ≠ 0 := fun h => hr (by linarith)
  have h2 : r - pgr ≠ 0 := sub_ne_zero_of_ne hrp
  exact ⟨fun h => CalculateDCFDensity_neg_horizon fcf hne pF h g pgr r tc td os,
    fun h => CalculateDCFDensity_ok fcf hne pF h g pgr r tc td os h1 h2 hos⟩

/-- Witness for `horizon_validation_behavior` at `forwardPeriods = -1`. -/
theorem horizon_validation_behavior_witness :
    ((-1 : ℤ) ≤ -1 → CalculateDCFDensity [100] (-1) 0 (2/100) (8/100) 0 0 10
        = Except.error DCFError.indexError)
    ∧ ((0 : ℤ) ≤ -1 → CalculateDCFDensity [100] (-1) 0 (2/100) (8/100) 0 0 10
        = Except.ok (dcfValue 100 (-1) 0 (2/100) (8/100) 0 0 10)) :=
  horizon_validation_behavior [100] (by simp) (-1) 0 (2/100) (8/100) 0 0 10
    (by norm_num) (by norm_num) (by norm_num)

/-- Claim C7: over valid inputs (non-empty history, `forwardPeriods ≥ 1`,
`perpetualGrowthRate < discountRate`, `discountRate ≠ -1`, positive share
counts) and holding all else fixed, the per-share result strictly
decreases in `totalDebt`, strictly increases in `totalCash`, and strictly
decreases in `outstandingShares` whenever the per-share (equivalently,
equity) value is positive. -/
theorem monotonicity_in_balance_sheet (fcf : List ℚ) (hne : fcf ≠ []) (pF : ℤ)
    (hpF : 1 ≤ pF) (g pgr r tc tc2 td td2 os os2 : ℚ)
    (hrg : pgr < r) (hr : r ≠ -1) (hos : 0 < os) (hos2 : 0 < os2) :
    (td < td2 → dcfResult fcf pF g pgr r tc td2 os < dcfResult fcf pF g pgr r tc td os)
    ∧ (tc < tc2 → dcfResult fcf pF g pgr r tc td os < dcfResult fcf pF g pgr r tc2 td os)
    ∧ (os < os2 → 0 < dcfResult fcf pF g pgr r tc td os →
        dcfResult fcf pF g pgr r tc td os2 < dcfResult fcf pF g pgr r tc td os) := by
  have h1 : 1 + r ≠ 0 := fun h => hr (by linarith)
  have h2 : r - pgr ≠ 0 := sub_ne_zero_of_ne (ne_of_gt hrg)
  have key : ∀ tcx tdx osx : ℚ, osx ≠ 0 → dcfResult fcf pF g pgr r tcx tdx osx
      = (pvffcfSum (fcf.getLast hne) pF g pgr r + tcx - tdx) / osx := by
    intro tcx tdx osx hosx
    rw [dcfResult,
      CalculateDCFDensity_ok fcf hne pF (by omega) g pgr r tcx tdx osx h1 h2 hosx]
    rfl
  refine ⟨?_, ?_, ?_⟩
  · intro hlt
    rw [key tc td2 os (ne_of_gt hos), key tc td os (ne_of_gt hos)]
    exact (div_lt_div_iff_of_pos_right hos).mpr (by linarith)
  · intro hlt
    rw [key tc td os (ne_of_gt hos), key tc2 td os (ne_of_gt hos)]
    exact (div_lt_div_iff_of_pos_right hos).mpr (by linarith)
  · intro hlt hpos
    rw [key tc td os (ne_of_gt hos)] at hpos
    rw [key tc td os2 (ne_of_gt hos2), key tc td os (ne_of_gt hos)]
    have hE : 0 < pvffcfSum (fcf.getLast hne) pF g pgr r + tc - td := by
      have hmul := mul_pos hpos hos
      rwa [div_mul_cancel₀ _ (ne_of_gt hos)] at hmul
    exact div_lt_div_of_pos_left hE hos hlt

/-- Witness for `monotonicity_in_balance_sheet`. -/
theorem monotonicity_in_balance_sheet_witness :
    (dcfResult [100] 1 0 (2/100) (8/100) 0 729 10
        < dcfResult [100] 1 0 (2/100) (8/100) 0 0 10)
    ∧ (dcfResult [100] 1 0 (2/100) (8/100) 0 0 10
        < dcfResult [100] 1 0 (2/100) (8/100) 729 0 10)
    ∧ (dcfResult [100] 1 0 (2/100) (8/100) 0 0 20
        < dcfResult [100] 1 0 (2/100) (8/100) 0 0 10) := by
  have hpos : 0 < dcfResult [100] 1 0 (2/100) (8/100) 0 0 10 := by
    rw [dcfResult, CalculateDCFDensity_ok [100] (by simp) 1 (by omega) 0 (2/100)
      (8/100) 0 0 10 (by norm_num) (by norm_num) (by norm_num)]
    norm_num [dcfValue, pvffcfSum, ffcf, List.range_succ,
      show Int.toNat 2 = 2 from rfl, Except.toOption]
  have h := monotonicity_in_balance_sheet [100] (by simp) 1 (by norm_num) 0 (2/100)
    (8/100) 0 729 0 729 10 20 (by norm_num) (by norm_num) (by norm_num) (by norm_num)
  exact ⟨h.1 (by norm_num), h.2.1 (by norm_num), h.2.2 (by norm_num) hpos⟩

/-- Claim C8: two non-empty histories with equal last elements give the
same result for every choice of the remaining inputs — the earlier
history entries have no influence on the engine's output. -/
theorem last_element_sole_anchor (fcf1 fcf2 : List ℚ) (h1 : fcf1 ≠ []) (h2 : fcf2 ≠ [])
    (hlast : fcf1.getLast h1 = fcf2.getLast h2) (pF : ℤ) (g pgr r tc td os : ℚ) :
    CalculateDCFDensity fcf1 pF g pgr r tc td os
      = CalculateDCFDensity fcf2 pF g pgr r tc td os := by
  simp only [CalculateDCFDensity]
  rw [List.getLast?_eq_getLast_of_ne_nil h1, List.getLast?_eq_getLast_of_ne_nil h2,
    hlast]

/-- Witness for `last_element_sole_anchor`. -/
theorem last_element_sole_anchor_witness :
    CalculateDCFDensity [50, 100] 1 0 (2/100) (8/100) 0 0 10
      = CalculateDCFDensity [100] 1 0 (2/100) (8/100) 0 0 10 :=
  last_element_sole_anchor [50, 100] [100] (by simp) (by simp) (by rfl) 1 0 (2/100)
    (8/100) 0 0 10

/-- Claim C9: with `growthRate = 0` the explicit projection is flat —
every explicitly projected cash flow `ffcf[i]` equals `fcf0`, the last
element of the history. -/
theorem flat_projection_when_growth_zero (fcf0 : ℚ) (i : ℕ) : ffcf fcf0 0 i = fcf0 := by
  induction i with
  | zero => simp [ffcf]
  | succ n ih => simp [ffcf, ih]

/-- Claim C10: scaling every history entry, `totalCash` and `totalDebt`
by `lam > 0` (holding the rates, horizon and share count fixed) scales
the engine's outcome by exactly `lam`: a returned value is multiplied by
`lam`, and raising runs raise the same error. -/
theorem scale_invariance (fcf : List ℚ) (pF : ℤ) (g pgr r tc td os lam : ℚ)
    (_hlam : 0 < lam) :
    CalculateDCFDensity (fcf.map (fun x => lam * x)) pF g pgr r (lam * tc) (lam * td) os
      = Except.map (fun v => lam * v) (CalculateDCFDensity fcf pF g pgr r tc td os) := by
  simp only [CalculateDCFDensity, getLast?_map_mul]
  cases hfl : fcf.getLast? with
  | none => rfl
  | some fcf0 =>
    simp only [Option.map_some']
    cases htl : ((List.range (pF + 1).toNat).map (fun (i : ℕ) => 1 + (i : ℤ))).head? with
    | none => rfl
    | some t1 =>
      by_cases hc1 : 1 + r = 0
      · rw [if_pos hc1, if_pos hc1]
        rfl
      · rw [if_neg hc1, if_neg hc1]
        by_cases hc2 : r - pgr = 0
        · rw [if_pos hc2, if_pos hc2]
          rfl
        · rw [if_neg hc2, if_neg hc2]
          by_cases hc3 : os = 0
          · rw [if_pos hc3, if_pos hc3]
            rfl
          · rw [if_neg hc3, if_neg hc3, dcfValue_smul]
            rfl

/-- Witness for `scale_invariance` with `lam = 2`. -/
theorem scale_invariance_witness :
    CalculateDCFDensity ([100].map (fun x => 2 * x)) 1 0 (2/100) (8/100) (2 * 0) (2 * 0) 10
      = Except.map (fun v => 2 * v) (CalculateDCFDensity [100] 1 0 (2/100) (8/100) 0 0 10) :=
  scale_invariance [100] 1 0 (2/100) (8/100) 0 0 10 2 (by norm_num)
